import Mathlib

/-!
Shallow embedding of the quiz coordinator in `src/App.tsx`: the round lifecycle,
answer-submission guard, scoring idempotence wrapper, reveal synchronization
protocol and current-round view projection, together with theorems checking the
specification's claims about them.
-/

namespace Allstar

/-- The four answer options (`'A' | 'B' | 'C' | 'D'` in `App.tsx`). -/
inductive Choice
  | A
  | B
  | C
  | D
deriving DecidableEq, Repr

/-- `RoundStatus` from `App.tsx`: `'ready' | 'open' | 'closed' | 'scored'`
(`open` is a Lean keyword, hence `open_`). -/
inductive RoundStatus
  | ready
  | open_
  | closed
  | scored
deriving DecidableEq, Repr

/-- The `Round` row type from `App.tsx`. Timestamps are modelled as `Nat`;
the nullable `reveal_started` field is modelled as `Bool` (null is falsy). -/
structure Round where
  id : Nat
  room_code : String
  index_no : Nat
  status : RoundStatus
  correct_choice : Option Choice
  opened_at : Option Nat
  reveal_started : Bool
  reveal_at : Option Nat
deriving DecidableEq, Repr

/-- The `Player` row type from `App.tsx`. -/
structure Player where
  id : Nat
  room_code : String
  display_name : String
  total_score : Nat
deriving DecidableEq, Repr

/-- The `RankRow` type from `App.tsx` (a row of the derived `v_round_rank` view). -/
structure RankRow where
  room_code : String
  round_id : Nat
  player_id : Nat
  choice : Choice
  created_at : Nat
  elapsed_sec : Option Int
  rank : Nat
deriving DecidableEq, Repr

/-- An `answers` table row: the insert payload of `answer` in `App.tsx`
plus the store-assigned `created_at`. -/
structure AnswerRow where
  room_code : String
  round_id : Nat
  player_id : Nat
  choice : Choice
  created_at : Nat
deriving DecidableEq, Repr

/-- Modelled from the spec: the `answers` table (external store schema, not under
`src/`) carries a uniqueness constraint on `(round_id, player_id)`; an insert that
conflicts with an existing row fails with a unique-violation error (code 23505)
and leaves the stored rows unchanged (`none` models the rejected insert). -/
def insertAnswer (store : List AnswerRow) (row : AnswerRow) :
    Option (List AnswerRow) :=
  if store.any (fun a => a.round_id == row.round_id && a.player_id == row.player_id)
  then none
  else some (store ++ [row])

/-- At most one answer row per `(round_id, player_id)` pair — the store's
uniqueness invariant. -/
def answersUnique (store : List AnswerRow) : Prop :=
  store.Pairwise (fun a b => ¬(a.round_id = b.round_id ∧ a.player_id = b.player_id))

/-- The slice of GM page state that `applyScores` reads and writes:
the selected round, the single-flight `isScoring` flag, and the
projection of the players list (carrying `total_score`). -/
structure GMScoringState where
  current : Option Round
  isScoring : Bool
  players : List Player
deriving DecidableEq, Repr

/-- The local preconditions under which `applyScores` returns before issuing
the external call: no selected round, no correct choice, status already
`scored`, or a scoring call already in flight. -/
def scoringBlocked (s : GMScoringState) : Bool :=
  match s.current with
  | none => true
  | some c =>
      c.correct_choice.isNone || decide (c.status = RoundStatus.scored) || s.isScoring

/-- `applyScores` from `App.tsx`. The external atomic RPC
`apply_scores_for_round` is passed in as `rpc`: `none` models a failed call
(alert shown, no refresh), `some (ps, r)` models success together with the
post-state fetched by `refreshPlayers`/`refreshRounds` (players list and the
updated round). The returned `Bool` records whether the external call was
issued at all. -/
def applyScores (s : GMScoringState) (rpc : Option (List Player × Round)) :
    Bool × GMScoringState :=
  match s.current with
  | none => (false, s)
  | some c =>
      if c.correct_choice.isNone then (false, s)
      else if c.status = RoundStatus.scored then (false, s)
      else if s.isScoring then (false, s)
      else
        match rpc with
        | none => (true, { current := s.current, isScoring := false, players := s.players })
        | some (ps, r) => (true, { current := some r, isScoring := false, players := ps })

/-- The slice of player page state that `answer` reads and writes. -/
structure PlayerAnswerState where
  me : Option Player
  current : Option Round
  myAnswerChoice : Option Choice
deriving DecidableEq, Repr

/-- Result of one `answer` invocation: the answers store afterwards, the local
state afterwards, and whether any error was surfaced to the participant. -/
structure AnswerOutcome where
  store : List AnswerRow
  state : PlayerAnswerState
  errorSurfaced : Bool
deriving DecidableEq, Repr

/-- `answer` from `App.tsx`: returns unless a player and an `open` round are
present and no choice is pinned yet; attempts the insert; a store error
(in particular the 23505 uniqueness conflict) is silently ignored; on success
the chosen option is pinned locally. -/
def answer (s : PlayerAnswerState) (store : List AnswerRow) (now : Nat)
    (choice : Choice) : AnswerOutcome :=
  match s.me with
  | none => ⟨store, s, false⟩
  | some me =>
      match s.current with
      | none => ⟨store, s, false⟩
      | some cur =>
          if cur.status ≠ RoundStatus.open_ then ⟨store, s, false⟩
          else if s.myAnswerChoice.isSome then ⟨store, s, false⟩
          else
            match insertAnswer store ⟨me.room_code, cur.id, me.id, choice, now⟩ with
            | none => ⟨store, s, false⟩
            | some store2 => ⟨store2, { s with myAnswerChoice := some choice }, false⟩

/-- Result of `newRound` in `App.tsx`: missing room, guard rejection
(the `RoundInProgress` alert), or a created round. -/
inductive NewRoundResult
  | noRoom
  | roundInProgress
  | created (r : Round)
deriving DecidableEq, Repr

/-- `nextIndexNo` from `App.tsx`: highest `index_no` among the room's rounds
plus one, or 1 when the room has no rounds. -/
def nextIndexNo (rounds : List Round) (roomCode : String) : Nat :=
  ((rounds.filter (fun r => r.room_code == roomCode)).map Round.index_no).foldr max 0 + 1

/-- `newRound` from `App.tsx`: requires a room code; rejects while the
currently selected round (`current`) has status other than `scored`;
otherwise inserts a fresh `ready` round with the next index. -/
def newRound (roomCode : String) (current : Option Round) (rounds : List Round)
    (newId : Nat) : NewRoundResult × List Round :=
  if roomCode = "" then (NewRoundResult.noRoom, rounds)
  else
    match current with
    | some c =>
        if c.status ≠ RoundStatus.scored then (NewRoundResult.roundInProgress, rounds)
        else
          let r : Round :=
            ⟨newId, roomCode, nextIndexNo rounds roomCode, RoundStatus.ready,
              none, none, false, none⟩
          (NewRoundResult.created r, rounds ++ [r])
    | none =>
        let r : Round :=
          ⟨newId, roomCode, nextIndexNo rounds roomCode, RoundStatus.ready,
            none, none, false, none⟩
        (NewRoundResult.created r, rounds ++ [r])

/-- The claim's precondition for round creation, following the spec's words:
permitted iff no round exists for the room or the latest (highest index)
round's status is `scored` (the store list is ordered ascending by
`index_no`, so the latest round is the last element). -/
def claimPermitsNewRound (rounds : List Round) : Bool :=
  match rounds.getLast? with
  | none => true
  | some latest => decide (latest.status = RoundStatus.scored)

/-- The `setCurrent` updater inside `refreshRounds` in `App.tsx`:
default to the last round of the (index-ascending) list; keep a pinned round
that is still present, except auto-advance when it is `scored` and a strictly
later round exists. -/
def selectCurrent (prev : Option Round) (list : List Round) : Option Round :=
  match list.getLast? with
  | none => none
  | some latest =>
      match prev with
      | none => some latest
      | some p =>
          match list.find? (fun r => r.id == p.id) with
          | none => some latest
          | some same =>
              if same.status = RoundStatus.scored ∧ same.index_no < latest.index_no
              then some latest
              else some same

/-- Whether `same` is the round just superseded, i.e. the second-to-last
round of the (index-ascending) list. -/
def isJustSuperseded (same : Round) (list : List Round) : Bool :=
  match list.dropLast.getLast? with
  | none => false
  | some penult => penult.id == same.id

/-- The claim's selection rule, following the spec's words: a pinned round
stays selected unless it was the round just superseded AND it is now `scored`
AND a strictly later round exists. Compare with `selectCurrent`. -/
def selectCurrentClaim (prev : Option Round) (list : List Round) : Option Round :=
  match list.getLast? with
  | none => none
  | some latest =>
      match prev with
      | none => some latest
      | some p =>
          match list.find? (fun r => r.id == p.id) with
          | none => some latest
          | some same =>
              if same.status = RoundStatus.scored ∧ same.index_no < latest.index_no
                  ∧ isJustSuperseded same list = true
              then some latest
              else some same

/-- `correctOnlyRanks` from `App.tsx` (both pages): the rank rows whose choice
equals the current round's correct choice; empty when no round is selected or
no correct choice is set. -/
def correctOnlyRanks (current : Option Round) (ranks : List RankRow) :
    List RankRow :=
  match current with
  | none => []
  | some c =>
      match c.correct_choice with
      | none => []
      | some cc => ranks.filter (fun r => r.choice == cc)

/-- `showCountFromBottom` from `App.tsx`: the number of entries shown from the
bottom; zero until the local reveal is active. -/
def showCountFromBottom (revealActive : Bool) (revealShown : Nat) : Nat :=
  if revealActive then revealShown else 0

/-- Visibility of the rank entry at 0-indexed position `idx` of a `K`-entry
correct-answer list, as rendered by both pages in `App.tsx`: the list is
rendered only under `reveal_started && correct_choice`, and an entry is
visible when its distance from the bottom is below `showCountFromBottom`. -/
def entryVisible (reveal_started : Bool) (correct_choice : Option Choice)
    (revealActive : Bool) (revealShown : Nat) (K idx : Nat) : Bool :=
  if reveal_started ∧ correct_choice.isSome then
    decide (K - 1 - idx < showCountFromBottom revealActive revealShown)
  else false

/-- Local reveal-animation state of one client: the `revealActive` and
`revealShown` pieces of state plus whether the stepping interval timer is
currently installed (`revealTimer.current !== null`). -/
structure RevealState where
  revealActive : Bool
  revealShown : Nat
  timerOn : Bool
deriving DecidableEq, Repr

/-- The initial/reset reveal state: inactive, zero shown, no timer. -/
def idleReveal : RevealState := ⟨false, 0, false⟩

/-- `startRevealLocal` from the GM page in `App.tsx`: a no-op when the
correct-entry list is empty or a reveal is already active; otherwise activates
the reveal with count 1 and installs the stepping timer. -/
def startRevealLocal (K : Nat) (s : RevealState) : RevealState :=
  if K = 0 ∨ s.revealActive then s else ⟨true, 1, true⟩

/-- The participant-side start (inside the `reveal_started` effect of
`PlayerPage` in `App.tsx`): a no-op when already active; otherwise activates
the reveal with count 1 and installs the stepping timer. Note there is no
emptiness check here, unlike `startRevealLocal`. -/
def startRevealPlayer (s : RevealState) : RevealState :=
  if s.revealActive then s else ⟨true, 1, true⟩

/-- One tick of the stepping interval (identical callback on both pages in
`App.tsx`): when the timer is installed, the next count is clamped to `K`
(`Math.min(next, length)`), and the timer is cleared once `next >= K`. -/
def revealTick (K : Nat) (s : RevealState) : RevealState :=
  if s.timerOn then
    { revealActive := s.revealActive,
      revealShown := min (s.revealShown + 1) K,
      timerOn := if K ≤ s.revealShown + 1 then false else s.timerOn }
  else s

/-- The `PlayerPage` effect in `App.tsx` keyed on `current?.reveal_started`:
a reset to idle (timer cleared) when the flag is false, otherwise the
participant-side start. -/
def playerOnRevealFlag (reveal_started : Bool) (s : RevealState) : RevealState :=
  if reveal_started then startRevealPlayer s else idleReveal

/-- The GM page's reaction to observing a change of `reveal_started` through
the change-notification path while the round id is unchanged: `GMPage` in
`App.tsx` has no effect keyed on `reveal_started` (its only reveal-reset
effect is keyed on `current?.id`), so the local reveal state is unchanged. -/
def gmOnRevealFlag (_reveal_started : Bool) (s : RevealState) : RevealState := s

/-- A participant-side reveal run: the local state after the start transition
followed by `n` timer ticks, for a correct-entry list of size `K`. -/
def revealRun (K n : Nat) : RevealState :=
  (revealTick K)^[n] (startRevealPlayer idleReveal)

/-- `startReveal` from the GM page in `App.tsx`: rejected (alert, no write)
when the current round has no correct choice; otherwise writes
`reveal_started := true` and `reveal_at := now` to the round (the returned
round is the row written to the store). -/
def startReveal (current : Option Round) (now : Nat) : Option Round :=
  match current with
  | none => none
  | some c =>
      match c.correct_choice with
      | none => none
      | some _ => some { c with reveal_started := true, reveal_at := some now }

/-- The enabled-condition of the GM's reveal button in `App.tsx`
(negation of its `disabled` attribute): a correct choice is set, the rank
list — of any choice, not only correct rows — is nonempty, and the reveal has
not already started. -/
def startRevealEnabled (current : Option Round) (ranks : List RankRow) : Bool :=
  match current with
  | none => false
  | some c => c.correct_choice.isSome && !ranks.isEmpty && !c.reveal_started

/-- The GM's full reveal-start path in `App.tsx`: on a successful
`startReveal` write, the GM's local reveal is started by the direct call
`startRevealLocal()` on the next line — not via the notification path. -/
def gmStartRevealPath (current : Option Round) (ranks : List RankRow) (now : Nat)
    (s : RevealState) : Option Round × RevealState :=
  match startReveal current now with
  | none => (none, s)
  | some r => (some r, startRevealLocal (correctOnlyRanks current ranks).length s)

/-- The player page's per-round pin state: the `prevRoundId` ref and the
locally pinned `myAnswerChoice`. -/
structure PinState where
  prevRoundId : Option Nat
  myAnswerChoice : Option Choice
deriving DecidableEq, Repr

/-- The store lookup of a participant's answer row for a round
(`.eq('round_id', cid).eq('player_id', me.id).maybeSingle()` in `App.tsx`). -/
def lookupAnswer (store : List AnswerRow) (roundId playerId : Nat) :
    Option Choice :=
  (store.find? (fun a => a.round_id == roundId && a.player_id == playerId)).map
    AnswerRow.choice

/-- The `PlayerPage` effect in `App.tsx` keyed on the current round id:
when a round id is present and differs from `prevRoundId`, the pin is cleared
and re-derived by looking up the existing answer row for
(round, participant); otherwise nothing changes. -/
def onRoundObserved (me : Option Player) (current : Option Round)
    (store : List AnswerRow) (s : PinState) : PinState :=
  match current with
  | none => s
  | some cur =>
      if s.prevRoundId = some cur.id then s
      else
        match me with
        | none => ⟨some cur.id, none⟩
        | some p => ⟨some cur.id, lookupAnswer store cur.id p.id⟩

/-! Concrete fixtures used by witnesses and counterexamples. -/

/-- A participant fixture. -/
def kenP : Player := ⟨1, "4821", "Ken", 0⟩

/-- Round 1 while open. -/
def roundOpen1 : Round := ⟨1, "4821", 1, RoundStatus.open_, none, some 0, false, none⟩

/-- Round 1 closed with correct choice A. -/
def roundClosed1 : Round :=
  ⟨1, "4821", 1, RoundStatus.closed, some Choice.A, some 0, false, none⟩

/-- Round 1 after scoring. -/
def roundScored1 : Round :=
  ⟨1, "4821", 1, RoundStatus.scored, some Choice.A, some 0, false, none⟩

/-- Round 2 while open (no correct choice yet). -/
def roundOpen2 : Round := ⟨2, "4821", 2, RoundStatus.open_, none, some 10, false, none⟩

/-- Round 2 after scoring. -/
def roundScored2 : Round :=
  ⟨2, "4821", 2, RoundStatus.scored, some Choice.B, some 10, false, none⟩

/-- Round 3 while open. -/
def roundOpen3 : Round := ⟨3, "4821", 3, RoundStatus.open_, none, some 20, false, none⟩

/-- A rank row for a wrong choice (B while the correct choice is A). -/
def wrongOnlyRanks : List RankRow := [⟨"4821", 1, 2, Choice.B, 5, some 5, 1⟩]

/-- Ken's stored answer row for round 1. -/
def ansKenR1 : AnswerRow := ⟨"4821", 1, 1, Choice.A, 3⟩

/-! Theorems. -/

/-- Helper: `applyScores` on a state whose current round is `scored` issues no
external call and changes nothing. -/
theorem applyScores_of_scored (r : Round) (b : Bool) (ps : List Player)
    (rpc : Option (List Player × Round)) (hr : r.status = RoundStatus.scored) :
    applyScores ⟨some r, b, ps⟩ rpc = (false, ⟨some r, b, ps⟩) := by
  by_cases h : r.correct_choice.isNone <;> simp [applyScores, h, hr]

/-- Claim C1: if the current round's correct choice is unset, or its status is
already `scored`, or a scoring call is already in flight, `applyScores` issues
no external call and changes no local state; consequently a second invocation
after a successful first one (whose refreshed round status is `scored`, by the
external atomic operation's contract) issues no call and leaves the projected
players list — hence every participant's `total_score` — unchanged. -/
theorem applyScores_idempotent (s : GMScoringState)
    (rpc rpc2 : Option (List Player × Round)) (ps : List Player) (r : Round) :
    (scoringBlocked s = true → applyScores s rpc = (false, s)) ∧
    ((applyScores s (some (ps, r))).1 = true → r.status = RoundStatus.scored →
      applyScores (applyScores s (some (ps, r))).2 rpc2
        = (false, (applyScores s (some (ps, r))).2)) := by
  constructor
  · intro hb
    match hc : s.current with
    | none => simp [applyScores, hc]
    | some c =>
      have hb2 : (c.correct_choice = none ∨ c.status = RoundStatus.scored)
          ∨ s.isScoring = true := by
        simpa [scoringBlocked, hc] using hb
      by_cases h1 : c.correct_choice = none
      · simp [applyScores, hc, h1]
      · rcases hb2 with (h | h) | h
        · exact absurd h h1
        · simp [applyScores, hc, h1, h]
        · by_cases h2 : c.status = RoundStatus.scored
          · simp [applyScores, hc, h1, h2]
          · simp [applyScores, hc, h1, h2, h]
  · intro hcall hr
    match hc : s.current with
    | none => simp [applyScores, hc] at hcall
    | some c =>
      by_cases h1 : c.correct_choice = none
      · simp [applyScores, hc, h1] at hcall
      · by_cases h2 : c.status = RoundStatus.scored
        · simp [applyScores, hc, h1, h2] at hcall
        · by_cases h3 : s.isScoring
          · simp [applyScores, hc, h1, h2, h3] at hcall
          · have hres : applyScores s (some (ps, r)) = (true, ⟨some r, false, ps⟩) := by
              simp [applyScores, hc, h1, h2, h3]
            rw [hres]
            simpa using applyScores_of_scored r false ps rpc2 hr

/-- Witness for C1 at a concrete state: a second `applyScores` after a
successful scoring of round 1 issues no call and changes nothing. -/
theorem applyScores_idempotent_witness :
    applyScores (applyScores ⟨some roundClosed1, false, [kenP]⟩
        (some ([⟨1, "4821", "Ken", 100⟩], roundScored1))).2 none
      = (false, (applyScores ⟨some roundClosed1, false, [kenP]⟩
          (some ([⟨1, "4821", "Ken", 100⟩], roundScored1))).2) :=
  (applyScores_idempotent ⟨some roundClosed1, false, [kenP]⟩ none none
      [⟨1, "4821", "Ken", 100⟩] roundScored1).2 (by decide) (by decide)

/-- Claim C4: for a K-entry correct-answer list, the entry at 0-indexed
position `idx` is visible exactly when the local reveal is active and the
reveal count exceeds its distance from the bottom `K-1-idx`; and while
`reveal_started` is false, no entry is visible regardless of any other local
state. -/
theorem entryVisible_rule (rs : Bool) (cc : Option Choice) (ra : Bool)
    (shown K idx : Nat) :
    (rs = false → entryVisible rs cc ra shown K idx = false) ∧
    (cc.isSome = true →
      (entryVisible rs cc ra shown K idx = true ↔
        rs = true ∧ ra = true ∧ K - 1 - idx < shown)) := by
  constructor
  · intro h
    simp [entryVisible, h]
  · intro hcc
    cases rs with
    | false => simp [entryVisible]
    | true =>
      cases ra with
      | false => simp [entryVisible, showCountFromBottom, hcc]
      | true => simp [entryVisible, showCountFromBottom, hcc]

/-- Witness for C4: before the reveal flag is set, an entry is invisible even
with an active local count. -/
theorem entryVisible_rule_witness :
    entryVisible false (some Choice.A) true 5 3 1 = false :=
  (entryVisible_rule false (some Choice.A) true 5 3 1).1 rfl

/-- Claim C10: invoking the reveal-start path while a reveal is already active
is a no-op on both pages (no reveal-state change, no second timer installed),
and the GM-side start is also a no-op when the correct-entry list is empty. -/
theorem revealStart_single (K : Nat) (s : RevealState) :
    (s.revealActive = true → startRevealLocal K s = s ∧ startRevealPlayer s = s) ∧
    (K = 0 → startRevealLocal K s = s) := by
  refine ⟨fun h => ⟨?_, ?_⟩, fun h => ?_⟩
  · simp [startRevealLocal, h]
  · simp [startRevealPlayer, h]
  · simp [startRevealLocal, h]

/-- Witness for C10: starting while a reveal is active leaves the reveal state
(timer included) untouched. -/
theorem revealStart_single_witness :
    startRevealLocal 3 ⟨true, 2, true⟩ = ⟨true, 2, true⟩ ∧
    startRevealPlayer ⟨true, 2, true⟩ = ⟨true, 2, true⟩ :=
  (revealStart_single 3 ⟨true, 2, true⟩).1 rfl

/-- Helper: a successful `insertAnswer` preserves the per-(round, participant)
uniqueness invariant of the answers store. -/
theorem insertAnswer_preserves_unique {store store2 : List AnswerRow}
    {row : AnswerRow} (hu : answersUnique store)
    (h : insertAnswer store row = some store2) : answersUnique store2 := by
  unfold insertAnswer at h
  split_ifs at h with hany
  injection h with h2
  subst h2
  refine List.pairwise_append.mpr ⟨hu, List.pairwise_singleton _ _, ?_⟩
  intro a ha b hb
  rw [List.mem_singleton] at hb
  subst hb
  intro hk
  exact hany (List.any_eq_true.mpr ⟨a, ha, by simp [hk.1, hk.2]⟩)

/-- Claim C2: a second submission for the same (round, participant) pair that
hits the store's uniqueness conflict is absorbed silently (no error surfaced),
overwrites nothing, and leaves the locally pinned choice alone; after a first
successful submission the pinned choice is that submission's choice and any
further attempt is a complete no-op; and submissions preserve the
at-most-one-row-per-pair store invariant. -/
theorem answer_duplicate_silent (me : Player) (cur : Round)
    (pin : Option Choice) (store : List AnswerRow) (now now2 : Nat)
    (c c2 : Choice) :
    ((∃ a ∈ store, a.round_id = cur.id ∧ a.player_id = me.id) →
      answer ⟨some me, some cur, pin⟩ store now c
        = ⟨store, ⟨some me, some cur, pin⟩, false⟩) ∧
    (cur.status = RoundStatus.open_ →
      (∀ a ∈ store, ¬(a.round_id = cur.id ∧ a.player_id = me.id)) →
      (answer ⟨some me, some cur, none⟩ store now c).state.myAnswerChoice
          = some c ∧
      answer (answer ⟨some me, some cur, none⟩ store now c).state
          (answer ⟨some me, some cur, none⟩ store now c).store now2 c2
        = ⟨(answer ⟨some me, some cur, none⟩ store now c).store,
           (answer ⟨some me, some cur, none⟩ store now c).state, false⟩) ∧
    (answersUnique store →
      answersUnique (answer ⟨some me, some cur, pin⟩ store now c).store) := by
  refine ⟨?_, ?_, ?_⟩
  · rintro ⟨a, ha, hk1, hk2⟩
    by_cases hst : cur.status = RoundStatus.open_
    · by_cases hpin : pin.isSome
      · simp [answer, hst, hpin]
      · have hins : insertAnswer store ⟨me.room_code, cur.id, me.id, c, now⟩ = none := by
          unfold insertAnswer
          rw [if_pos]
          exact List.any_eq_true.mpr ⟨a, ha, by simp [hk1, hk2]⟩
        simp [answer, hst, hpin, hins]
    · simp [answer, hst]
  · intro hst hnone
    have hins : insertAnswer store ⟨me.room_code, cur.id, me.id, c, now⟩
        = some (store ++ [⟨me.room_code, cur.id, me.id, c, now⟩]) := by
      unfold insertAnswer
      rw [if_neg]
      simp only [List.any_eq_true, not_exists]
      rintro x ⟨hx, hpred⟩
      simp only [Bool.and_eq_true, beq_iff_eq] at hpred
      exact hnone x hx ⟨hpred.1, hpred.2⟩
    have h1 : answer ⟨some me, some cur, none⟩ store now c
        = ⟨store ++ [⟨me.room_code, cur.id, me.id, c, now⟩],
           ⟨some me, some cur, some c⟩, false⟩ := by
      simp [answer, hst, hins]
    rw [h1]
    exact ⟨rfl, by simp [answer, hst]⟩
  · intro hu
    by_cases hst : cur.status = RoundStatus.open_
    · by_cases hpin : pin.isSome
      · simpa [answer, hst, hpin] using hu
      · match hins : insertAnswer store ⟨me.room_code, cur.id, me.id, c, now⟩ with
        | none => simpa [answer, hst, hpin, hins] using hu
        | some store2 =>
            have := insertAnswer_preserves_unique hu hins
            simpa [answer, hst, hpin, hins] using this
    · simpa [answer, hst] using hu

/-- Witness for C2: Ken submits A to the open round 1 over an empty store;
the pin is A and a second attempt with B changes nothing. -/
theorem answer_duplicate_silent_witness :
    (answer ⟨some kenP, some roundOpen1, none⟩ [] 5 Choice.A).state.myAnswerChoice
        = some Choice.A ∧
    answer (answer ⟨some kenP, some roundOpen1, none⟩ [] 5 Choice.A).state
        (answer ⟨some kenP, some roundOpen1, none⟩ [] 5 Choice.A).store 6 Choice.B
      = ⟨(answer ⟨some kenP, some roundOpen1, none⟩ [] 5 Choice.A).store,
         (answer ⟨some kenP, some roundOpen1, none⟩ [] 5 Choice.A).state, false⟩ :=
  (answer_duplicate_silent kenP roundOpen1 none [] 5 6 Choice.A Choice.B).2.1
    (by decide) (by simp)

/-- Helper: under the uniqueness invariant, the store lookup for a member
row's keys returns exactly that row's choice. -/
theorem lookupAnswer_eq_of_mem : ∀ {store : List AnswerRow} {a : AnswerRow},
    answersUnique store → a ∈ store →
    lookupAnswer store a.round_id a.player_id = some a.choice
  | [], _, _, ha => absurd ha (List.not_mem_nil _)
  | b :: t, a, hu, ha => by
      rw [answersUnique, List.pairwise_cons] at hu
      obtain ⟨hb, ht⟩ := hu
      rcases List.mem_cons.mp ha with rfl | hat
      · unfold lookupAnswer
        rw [List.find?_cons_of_pos t (by simp)]
        rfl
      · have hne : ¬(b.round_id == a.round_id && b.player_id == a.player_id) = true := by
          intro hpred
          simp only [Bool.and_eq_true, beq_iff_eq] at hpred
          exact hb a hat ⟨hpred.1, hpred.2⟩
        unfold lookupAnswer
        rw [List.find?_cons_of_neg t hne]
        exact lookupAnswer_eq_of_mem ht hat

/-- Claim C9: after a reload (fresh `prevRoundId`), the pin is re-derived from
the participant's existing answer row for the current round; with a pinned
choice any submission attempt is a complete no-op (so no second distinct
choice can be submitted); and observing a new round id clears the pin and
re-derives it fresh from the store for that round. -/
theorem pin_rederived (me : Player) (cur : Round) (store : List AnswerRow)
    (pin0 : Option Choice) (a : AnswerRow) (s : PinState)
    (hu : answersUnique store) (ha : a ∈ store)
    (hr : a.round_id = cur.id) (hp : a.player_id = me.id) :
    ((onRoundObserved (some me) (some cur) store ⟨none, pin0⟩).myAnswerChoice
        = some a.choice) ∧
    (∀ (now : Nat) (c2 : Choice),
      answer ⟨some me, some cur, some a.choice⟩ store now c2
        = ⟨store, ⟨some me, some cur, some a.choice⟩, false⟩) ∧
    (s.prevRoundId ≠ some cur.id →
      onRoundObserved (some me) (some cur) store s
        = ⟨some cur.id, lookupAnswer store cur.id me.id⟩) := by
  have hl : lookupAnswer store cur.id me.id = some a.choice := by
    rw [← hr, ← hp]
    exact lookupAnswer_eq_of_mem hu ha
  refine ⟨?_, ?_, ?_⟩
  · simp [onRoundObserved, hl]
  · intro now c2
    by_cases hst : cur.status = RoundStatus.open_ <;> simp [answer, hst]
  · intro hprev
    simp [onRoundObserved, hprev]

/-- Witness for C9: Ken reloads during round 1 with his answer row stored;
the pin is re-derived as A. -/
theorem pin_rederived_witness :
    (onRoundObserved (some kenP) (some roundOpen1) [ansKenR1]
        ⟨none, none⟩).myAnswerChoice = some Choice.A :=
  (pin_rederived kenP roundOpen1 [ansKenR1] none ansKenR1 ⟨none, none⟩
    (List.pairwise_singleton _ _) (by simp) rfl rfl).1

/-- Counterexample to C3 as stated: with the scored round 1 pinned while the
later round 2 is still open, the latest round's status is not `scored` — the
claim demands rejection — yet `newRound` creates and inserts round 3. -/
theorem newRound_guard_counterexample :
    claimPermitsNewRound [roundScored1, roundOpen2] = false ∧
    (newRound "4821" (some roundScored1) [roundScored1, roundOpen2] 3).2
      = [roundScored1, roundOpen2,
         ⟨3, "4821", 3, RoundStatus.ready, none, none, false, none⟩] :=
  ⟨rfl, rfl⟩

/-- Amended C3: `newRound` guards on the currently selected round rather than
the latest one: with a room code set, creation is rejected with
`RoundInProgress` (and no round inserted) while the selected round's status
is other than `scored`, and otherwise a fresh `ready` round with the next
index is appended. -/
theorem newRound_guard (roomCode : String) (current : Option Round)
    (rounds : List Round) (newId : Nat) (h0 : roomCode ≠ "") :
    (∀ c, current = some c → c.status ≠ RoundStatus.scored →
      newRound roomCode current rounds newId
        = (NewRoundResult.roundInProgress, rounds)) ∧
    ((current = none ∨ ∃ c, current = some c ∧ c.status = RoundStatus.scored) →
      newRound roomCode current rounds newId
        = (NewRoundResult.created
            ⟨newId, roomCode, nextIndexNo rounds roomCode, RoundStatus.ready,
              none, none, false, none⟩,
           rounds ++ [⟨newId, roomCode, nextIndexNo rounds roomCode,
              RoundStatus.ready, none, none, false, none⟩])) := by
  constructor
  · rintro c rfl hC
    simp [newRound, h0, hC]
  · rintro (rfl | ⟨c, rfl, hC⟩)
    · simp [newRound, h0]
    · simp [newRound, h0, hC]

/-- Witness for C3 (amended): creating while the selected round 2 is open is
rejected and inserts nothing. -/
theorem newRound_guard_witness :
    newRound "4821" (some roundOpen2) [roundScored1, roundOpen2] 3
      = (NewRoundResult.roundInProgress, [roundScored1, roundOpen2]) :=
  (newRound_guard "4821" (some roundOpen2) [roundScored1, roundOpen2] 3
    (by decide)).1 roundOpen2 rfl (by decide)

/-- Counterexample to C6 as stated: round 1 is closed with correct choice A
while the only rank row has choice B, so no ranked correct-answer entry
exists; the claim demands a NotReady rejection with no write, yet the GM
button is enabled and `startReveal` writes `reveal_started = true`. -/
theorem startReveal_counterexample :
    correctOnlyRanks (some roundClosed1) wrongOnlyRanks = [] ∧
    startRevealEnabled (some roundClosed1) wrongOnlyRanks = true ∧
    startReveal (some roundClosed1) 7
      = some ⟨1, "4821", 1, RoundStatus.closed, some Choice.A, some 0, true,
          some 7⟩ :=
  ⟨rfl, rfl, rfl⟩

/-- Amended C6: `startReveal` is rejected (alert, no write) exactly when the
current round has no correct choice set; the invoking button additionally
requires a nonempty rank list — of any choice, not only correct entries — and
that the reveal has not already started; whenever a correct choice is set the
write flips `reveal_started` to true. -/
theorem startReveal_behavior (current : Option Round) (ranks : List RankRow)
    (now : Nat) :
    ((Option.bind current Round.correct_choice).isNone = true →
      startReveal current now = none) ∧
    (∀ c, current = some c → c.correct_choice.isSome = true →
      startReveal current now
        = some { c with reveal_started := true, reveal_at := some now }) ∧
    (startRevealEnabled current ranks = true →
      ∃ r, startReveal current now = some r ∧ r.reveal_started = true) := by
  refine ⟨?_, ?_, ?_⟩
  · intro h
    cases current with
    | none => rfl
    | some c =>
      cases hcc : c.correct_choice with
      | none => simp [startReveal, hcc]
      | some x => simp [hcc] at h
  · rintro c rfl hcc
    cases hcc2 : c.correct_choice with
    | none => simp [hcc2] at hcc
    | some x => simp [startReveal, hcc2]
  · intro hen
    cases current with
    | none => simp [startRevealEnabled] at hen
    | some c =>
      cases hcc : c.correct_choice with
      | none => simp [startRevealEnabled, hcc] at hen
      | some x =>
        refine ⟨{ c with reveal_started := true, reveal_at := some now }, ?_, rfl⟩
        simp [startReveal, hcc]

/-- Witness for C6 (amended): round 2 has no correct choice, so the reveal
start is rejected and nothing is written. -/
theorem startReveal_behavior_witness :
    startReveal (some roundOpen2) 7 = none :=
  (startReveal_behavior (some roundOpen2) [] 7).1 rfl

/-- Counterexample to C7 as stated: observing `reveal_started = true` from
the idle state starts the participant's local reveal, but leaves the GM's
local reveal state untouched — the GM page has no such observation handler,
so the two code paths are not identical. -/
theorem gmObservation_counterexample :
    playerOnRevealFlag true idleReveal ≠ gmOnRevealFlag true idleReveal := by
  decide

/-- Amended C7: the GM's local reveal does not react to the
change-notification observation of `reveal_started` (that handler is the
identity); it starts through a separate direct path — a successful
`startReveal` write immediately followed by the local call
`startRevealLocal`, which is additionally guarded by a nonempty correct-entry
list, unlike the participant's observation path. -/
theorem gmReveal_direct_path (rs : Bool) (s : RevealState)
    (current : Option Round) (ranks : List RankRow) (now : Nat) :
    gmOnRevealFlag rs s = s ∧
    (∀ r, startReveal current now = some r →
      gmStartRevealPath current ranks now s
        = (some r, startRevealLocal (correctOnlyRanks current ranks).length s)) := by
  refine ⟨rfl, ?_⟩
  intro r h
  simp [gmStartRevealPath, h]

/-- Witness for C7 (amended): on round 1 (correct choice A, only wrong-choice
rank rows) the GM's direct path writes the flag and runs the guarded local
start (a no-op here, the correct-entry list being empty). -/
theorem gmReveal_direct_path_witness :
    gmStartRevealPath (some roundClosed1) wrongOnlyRanks 7 idleReveal
      = (some ⟨1, "4821", 1, RoundStatus.closed, some Choice.A, some 0, true,
          some 7⟩,
         startRevealLocal
           (correctOnlyRanks (some roundClosed1) wrongOnlyRanks).length
           idleReveal) :=
  (gmReveal_direct_path true idleReveal (some roundClosed1) wrongOnlyRanks 7).2
    _ rfl

/-- Counterexample to C8 as stated: rounds 1 and 2 are scored and round 3 is
open, with round 1 pinned. Round 1 is not the round just superseded, so the
claim's rule keeps it selected, but `selectCurrent` auto-advances to
round 3. -/
theorem selectCurrent_counterexample :
    isJustSuperseded roundScored1 [roundScored1, roundScored2, roundOpen3]
      = false ∧
    selectCurrentClaim (some roundScored1)
      [roundScored1, roundScored2, roundOpen3] = some roundScored1 ∧
    selectCurrent (some roundScored1) [roundScored1, roundScored2, roundOpen3]
      = some roundOpen3 := by
  refine ⟨rfl, ?_, ?_⟩ <;> decide

/-- Helper: in a list strictly increasing on `index_no`, the last element has
the maximal index. -/
theorem index_le_getLast_of_pairwise : ∀ (list : List Round) (latest : Round),
    list.Pairwise (fun a b => a.index_no < b.index_no) →
    list.getLast? = some latest → ∀ r ∈ list, r.index_no ≤ latest.index_no
  | [], _, _, h => by simp at h
  | [a], latest, _, h => by
      have ha : a = latest := by simpa using h
      subst ha
      intro r hr
      rw [List.mem_singleton] at hr
      subst hr
      exact le_refl _
  | a :: b :: t, latest, hp, h => by
      rw [List.getLast?_cons_cons] at h
      obtain ⟨h1, h2⟩ := List.pairwise_cons.mp hp
      intro r hr
      rcases List.mem_cons.mp hr with rfl | hrt
      · exact le_of_lt (h1 latest (List.mem_of_mem_getLast? h))
      · exact index_le_getLast_of_pairwise (b :: t) latest h2 h r hrt

/-- Amended C8: the selection defaults to the last round of the
(index-ascending) list, which carries the highest index; a pinned round that
is still present stays selected unless it is now `scored` and a strictly
later round exists — regardless of whether it was the round just
superseded — in which case the selection auto-advances to the latest round;
a pin no longer present also falls back to the latest. -/
theorem selectCurrent_rule (prev : Option Round) (list : List Round)
    (latest : Round) (hlast : list.getLast? = some latest) :
    (prev = none → selectCurrent prev list = some latest) ∧
    (∀ p same, prev = some p →
      list.find? (fun r => r.id == p.id) = some same →
      ((same.status = RoundStatus.scored ∧ same.index_no < latest.index_no →
          selectCurrent prev list = some latest) ∧
       (¬(same.status = RoundStatus.scored ∧ same.index_no < latest.index_no) →
          selectCurrent prev list = some same))) ∧
    (∀ p, prev = some p → list.find? (fun r => r.id == p.id) = none →
      selectCurrent prev list = some latest) ∧
    (list.Pairwise (fun a b => a.index_no < b.index_no) →
      ∀ r ∈ list, r.index_no ≤ latest.index_no) := by
  refine ⟨?_, ?_, ?_, ?_⟩
  · rintro rfl
    simp [selectCurrent, hlast]
  · rintro p same rfl hfind
    constructor
    · intro hcond
      simp [selectCurrent, hlast, hfind, hcond]
    · intro hcond
      simp [selectCurrent, hlast, hfind, hcond]
  · rintro p rfl hfind
    simp [selectCurrent, hlast, hfind]
  · intro hp
    exact index_le_getLast_of_pairwise list latest hp hlast

/-- Witness for C8 (amended): with no pin, the selection defaults to the last
round of the list. -/
theorem selectCurrent_rule_witness :
    selectCurrent none [roundScored1, roundOpen2] = some roundOpen2 :=
  (selectCurrent_rule none [roundScored1, roundOpen2] roundOpen2 rfl).1 rfl

/-- Counterexample to C5 as stated: a participant-side reveal run over zero
correct-answer entries (reachable, since the reveal can be started with only
wrong answers submitted) begins with count 1, which already exceeds K = 0,
and the count drops back to 0 at the first tick — it both exceeds K and
decreases. -/
theorem revealRun_counterexample :
    0 < (revealRun 0 0).revealShown ∧
    (revealRun 0 1).revealShown < (revealRun 0 0).revealShown := by
  decide

/-- Helper: unfolding one tick of a reveal run. -/
theorem revealRun_succ (K n : Nat) :
    revealRun K (n + 1) = revealTick K (revealRun K n) :=
  Function.iterate_succ_apply' (revealTick K) n (startRevealPlayer idleReveal)

/-- Helper: with at least one correct entry, the reveal count never exceeds
K. -/
theorem revealRun_le (K : Nat) (hK : 1 ≤ K) :
    ∀ n, (revealRun K n).revealShown ≤ K
  | 0 => by simpa [revealRun, startRevealPlayer, idleReveal] using hK
  | n + 1 => by
      rw [revealRun_succ]
      unfold revealTick
      by_cases ht : (revealRun K n).timerOn = true
      · rw [if_pos ht]
        show min ((revealRun K n).revealShown + 1) K ≤ K
        exact min_le_right _ _
      · rw [if_neg ht]
        exact revealRun_le K hK n

/-- Amended C5: for every reveal run over at least one correct-answer entry
(K ≥ 1), the count starts at 1, never decreases, never exceeds K, increases
by exactly 1 per 900 ms tick while the timer runs and the count is below K,
and the stepping timer is stopped by the tick at which the count reaches K.
(Over zero entries, the participant-side count starts at 1 and is clamped to
0 at the first tick.) -/
theorem revealRun_monotone_bounded (K n : Nat) (hK : 1 ≤ K) :
    (revealRun K 0).revealShown = 1 ∧
    (revealRun K n).revealShown ≤ (revealRun K (n + 1)).revealShown ∧
    (revealRun K n).revealShown ≤ K ∧
    ((revealRun K n).timerOn = true → (revealRun K n).revealShown < K →
      (revealRun K (n + 1)).revealShown = (revealRun K n).revealShown + 1) ∧
    ((revealRun K n).revealShown = K → (revealRun K (n + 1)).timerOn = false) := by
  have hle := revealRun_le K hK n
  refine ⟨by simp [revealRun, startRevealPlayer, idleReveal], ?_, hle, ?_, ?_⟩
  · rw [revealRun_succ]
    unfold revealTick
    by_cases ht : (revealRun K n).timerOn = true
    · rw [if_pos ht]
      show (revealRun K n).revealShown ≤ min ((revealRun K n).revealShown + 1) K
      omega
    · rw [if_neg ht]
  · intro ht hlt
    rw [revealRun_succ]
    unfold revealTick
    rw [if_pos ht]
    show min ((revealRun K n).revealShown + 1) K = (revealRun K n).revealShown + 1
    omega
  · intro hK2
    rw [revealRun_succ]
    unfold revealTick
    by_cases ht : (revealRun K n).timerOn = true
    · rw [if_pos ht]
      show (if K ≤ (revealRun K n).revealShown + 1 then false
            else (revealRun K n).timerOn) = false
      rw [if_pos (by omega)]
    · rw [if_neg ht]
      exact Bool.eq_false_iff.mpr ht

/-- Witness for C5 (amended) at K = 3, after one tick. -/
theorem revealRun_monotone_bounded_witness :
    (revealRun 3 0).revealShown = 1 ∧
    (revealRun 3 1).revealShown ≤ (revealRun 3 2).revealShown ∧
    (revealRun 3 1).revealShown ≤ 3 ∧
    ((revealRun 3 1).timerOn = true → (revealRun 3 1).revealShown < 3 →
      (revealRun 3 2).revealShown = (revealRun 3 1).revealShown + 1) ∧
    ((revealRun 3 1).revealShown = 3 → (revealRun 3 2).timerOn = false) :=
  revealRun_monotone_bounded 3 1 (by decide)

end Allstar
